import Mathlib

set_option autoImplicit false

namespace KaizenflowProof

/-!
Shallow embedding of the `Cached` two-level memoizing cache from
`helpers/cache.py`, of the downloader scripts
`im/ccxt/data/extract/download_historical.py` and
`vendors2/kibot/metadata/extract/download_adjustments.py`, of the
notebook publisher `dev_scripts/notebooks/publish_notebook.py`, and a
spec-level model of the DAG runners.

Digests produced by joblib for the arguments of a call are modelled by
the arguments themselves (hashing is assumed collision free), and a
joblib store backend is modelled as an association list from argument
digests to stored values together with the function source recorded in
the function directory.
-/

/-- Association-list lookup, modelling a joblib store backend lookup keyed
by digests.  The most recently inserted binding wins. -/
def assocFind {K V : Type} [DecidableEq K] : List (K × V) → K → Option V
  | [], _ => none
  | (k, v) :: rest, key => if k = key then some v else assocFind rest key

/-- The data joblib keeps about the wrapped function, as used by
`Cached._has_cached_version`: the intrinsic function itself (pure in this
model), its current source code (`jm.get_func_code`), whether the function
is registered in `jm._FUNCTION_HASHES`, the hash recorded there, and the
value of `cache._hash_func()`. -/
structure FuncSpec (A V : Type) where
  f : A → V
  funcCode : String
  inFunctionHashes : Bool
  recordedHash : String
  hashFunc : String

/-- One joblib store backend: the dumped items keyed by argument digest
(`store_backend.contains_item` / `dump_item`) and the function source
written next to them (`get_cached_func_code` / `_write_func_code`). -/
structure Backend (A V : Type) where
  items : List (A × V)
  storedFuncCode : Option String
deriving DecidableEq

/-- `Cached._has_cached_version` from `helpers/cache.py`: the backend must
contain an item for the digests, and the function source must be unchanged —
either via the fast check against `jm._FUNCTION_HASHES`, or by comparing the
current source with the source stored alongside the entry. -/
def hasCachedVersion {A V : Type} [DecidableEq A]
    (fs : FuncSpec A V) (b : Backend A V) (argsId : A) : Bool :=
  match assocFind b.items argsId with
  | none => false
  | some _ =>
    if fs.inFunctionHashes ∧ fs.hashFunc = fs.recordedHash then true
    else
      match b.storedFuncCode with
      | none => false
      | some old => decide (fs.funcCode = old)

/-- Modelled call of a joblib `MemorizedFunc` (the external library that
`Cached` wraps, i.e. `self._memory_cached_func(...)` or
`self._disk_cached_func(...)`): when the backend holds a valid entry the
stored value is loaded; otherwise the intrinsic function is executed, the
function cache is reset to hold the new source and the result, mirroring
joblib's `_check_previous_func_code` (whose validity logic
`Cached._has_cached_version` reimplements).  The returned Bool records
whether the intrinsic function was executed. -/
def memorizedCall {A V : Type} [DecidableEq A]
    (fs : FuncSpec A V) (b : Backend A V) (a : A) : V × Backend A V × Bool :=
  match assocFind b.items a with
  | some v =>
    if hasCachedVersion fs b a then (v, b, false)
    else (fs.f a, ⟨[(a, fs.f a)], some fs.funcCode⟩, true)
  | none =>
    (fs.f a, ⟨(a, fs.f a) :: b.items, some fs.funcCode⟩, true)

/-- `Cached._store_cached_version`: write out the current function source
to the cache and dump the returned value for the given digests. -/
def storeCachedVersion {A V : Type} [DecidableEq A]
    (fs : FuncSpec A V) (b : Backend A V) (a : A) (v : V) : Backend A V :=
  ⟨(a, v) :: b.items, some fs.funcCode⟩

/-- The per-instance configuration of `Cached.__init__`: the wrapped
function data and the `use_mem_cache` / `use_disk_cache` flags. -/
structure CachedCfg (A V : Type) where
  fs : FuncSpec A V
  useMemCache : Bool
  useDiskCache : Bool

/-- The mutable state of a `Cached` instance: both backends and the
tracing flags `_last_used_mem_cache` / `_last_used_disk_cache`. -/
structure CachedState (A V : Type) where
  mem : Backend A V
  disk : Backend A V
  lastUsedMemCache : Bool
  lastUsedDiskCache : Bool
deriving DecidableEq

/-- `Cached._reset_cache_tracing`: the tracing flags are reset to the
configured `use_*_cache` flags. -/
def resetCacheTracing {A V : Type} (cfg : CachedCfg A V) (s : CachedState A V) :
    CachedState A V :=
  { s with lastUsedDiskCache := cfg.useDiskCache,
           lastUsedMemCache := cfg.useMemCache }

/-- `Cached.get_last_cache_accessed`. -/
def getLastCacheAccessed {A V : Type} (s : CachedState A V) : String :=
  if s.lastUsedMemCache then "mem"
  else if s.lastUsedDiskCache then "disk"
  else "no_cache"

/-- `Cached._execute_func_from_disk_cache`: clear the disk tracing flag when
the disk backend has no valid entry, then run the joblib-cached function on
the disk backend.  Returns the value, the new state and whether the
intrinsic function was executed. -/
def executeFuncFromDiskCache {A V : Type} [DecidableEq A]
    (cfg : CachedCfg A V) (s : CachedState A V) (a : A) :
    V × CachedState A V × Bool :=
  let s1 := if hasCachedVersion cfg.fs s.disk a then s
            else { s with lastUsedDiskCache := false }
  let r := memorizedCall cfg.fs s1.disk a
  (r.1, { s1 with disk := r.2.1 }, r.2.2)

/-- `Cached._execute_func_from_mem_cache`: serve from the memory backend
when it has a valid entry; otherwise clear the memory tracing flag, obtain
the value from the disk level (or from the joblib memory-cached function
when the disk cache is off) and store it into the memory cache. -/
def executeFuncFromMemCache {A V : Type} [DecidableEq A]
    (cfg : CachedCfg A V) (s : CachedState A V) (a : A) :
    V × CachedState A V × Bool :=
  if hasCachedVersion cfg.fs s.mem a then
    let r := memorizedCall cfg.fs s.mem a
    (r.1, { s with mem := r.2.1 }, r.2.2)
  else
    let s1 := { s with lastUsedMemCache := false }
    if cfg.useDiskCache then
      let r := executeFuncFromDiskCache cfg s1 a
      (r.1, { r.2.1 with mem := storeCachedVersion cfg.fs r.2.1.mem a r.1 },
       r.2.2)
    else
      let r := memorizedCall cfg.fs s1.mem a
      (r.1, { s1 with mem := storeCachedVersion cfg.fs r.2.1 a r.1 }, r.2.2)

/-- `Cached._execute_func`: go through the memory level when
`use_mem_cache` is set, else through the disk level when `use_disk_cache`
is set, else execute the intrinsic function directly. -/
def executeFunc {A V : Type} [DecidableEq A]
    (cfg : CachedCfg A V) (s : CachedState A V) (a : A) :
    V × CachedState A V × Bool :=
  if cfg.useMemCache then executeFuncFromMemCache cfg s a
  else if cfg.useDiskCache then executeFuncFromDiskCache cfg s a
  else (cfg.fs.f a, s, true)

/-- `Cached.__call__` at the level of pure values: when caching is globally
disabled both tracing flags are cleared and the intrinsic function is
executed; otherwise tracing is reset and `_execute_func` runs.  The final
`copy.deepcopy` is the identity on pure values; object identity is
modelled separately by `cachedCallHeap`. -/
def cachedCall {A V : Type} [DecidableEq A]
    (cfg : CachedCfg A V) (cachingEnabled : Bool) (s : CachedState A V)
    (a : A) : V × CachedState A V × Bool :=
  if cachingEnabled then
    executeFunc cfg (resetCacheTracing cfg s) a
  else
    (cfg.fs.f a,
     { s with lastUsedDiskCache := false, lastUsedMemCache := false }, true)

/-- Value returned by a call of the `Cached` wrapper. -/
def callResult {A V : Type} [DecidableEq A]
    (cfg : CachedCfg A V) (cachingEnabled : Bool) (s : CachedState A V)
    (a : A) : V :=
  (cachedCall cfg cachingEnabled s a).1

/-- State of the `Cached` instance after a call. -/
def callState {A V : Type} [DecidableEq A]
    (cfg : CachedCfg A V) (cachingEnabled : Bool) (s : CachedState A V)
    (a : A) : CachedState A V :=
  (cachedCall cfg cachingEnabled s a).2.1

/-- Whether a call of the `Cached` wrapper executed the intrinsic
function. -/
def callExecuted {A V : Type} [DecidableEq A]
    (cfg : CachedCfg A V) (cachingEnabled : Bool) (s : CachedState A V)
    (a : A) : Bool :=
  (cachedCall cfg cachingEnabled s a).2.2

/-- Ground truth of which backend satisfies a call with caching enabled,
read off the pre-call state: the memory cache when it is on and holds a
valid entry, else the disk cache when it is on and holds a valid entry,
else the intrinsic function. -/
def callSource {A V : Type} [DecidableEq A]
    (cfg : CachedCfg A V) (s : CachedState A V) (a : A) : String :=
  if cfg.useMemCache && hasCachedVersion cfg.fs s.mem a then "mem"
  else if cfg.useDiskCache && hasCachedVersion cfg.fs s.disk a then "disk"
  else "no_cache"

/-- A heap of mutable Python objects: payloads indexed by addresses, with
an allocation counter.  Returned values of `Cached.__call__` are addresses
into such a heap; this models object identity and `copy.deepcopy`. -/
structure Heap (P : Type) where
  data : List (Nat × P)
  next : Nat
deriving DecidableEq

/-- Payload of the object at an address. -/
def Heap.lookup {P : Type} (h : Heap P) (r : Nat) : Option P :=
  assocFind h.data r

/-- In-place mutation of the object at an address. -/
def Heap.write {P : Type} (h : Heap P) (r : Nat) (p : P) : Heap P :=
  { h with data := (r, p) :: h.data }

/-- `copy.deepcopy`: allocate a fresh object carrying the same payload. -/
def Heap.deepcopy {P : Type} (h : Heap P) (r : Nat) : Heap P × Nat :=
  match assocFind h.data r with
  | some p => (⟨(h.next, p) :: h.data, h.next + 1⟩, h.next)
  | none => (h, r)

/-- Well-formed heap: every allocated address is below the allocation
counter. -/
def Heap.wf {P : Type} (h : Heap P) : Prop :=
  ∀ kv ∈ h.data, kv.1 < h.next

/-- `Cached.__call__` at the level of object identity: cached values are
heap addresses; with caching enabled the call runs `_execute_func` and
returns `copy.deepcopy` of the obtained object, with caching disabled the
intrinsic function's object is returned directly with no copy. -/
def cachedCallHeap {A P : Type} [DecidableEq A]
    (cfg : CachedCfg A Nat) (cachingEnabled : Bool) (s : CachedState A Nat)
    (h : Heap P) (a : A) : Nat × CachedState A Nat × Heap P :=
  if cachingEnabled then
    let r := executeFunc cfg (resetCacheTracing cfg s) a
    let hc := h.deepcopy r.1
    (hc.2, r.2.1, hc.1)
  else
    (cfg.fs.f a,
     { s with lastUsedDiskCache := false, lastUsedMemCache := false }, h)

/-!
Embedding of the module-level cache registry of `helpers/cache.py`:
`_MEMORY_CACHE` / `_DISK_CACHE`, `get_global_cache`, `set_global_cache`
and `get_cache`.  A `joblib.Memory` object is identified by the allocation
id it got when constructed and by its folder path; the construction
counter models Python object identity.
-/

/-- One `joblib.Memory` backend object, identified by construction id and
cache folder path. -/
structure CacheObj where
  objId : Nat
  path : String
deriving DecidableEq

/-- The module-level globals `_MEMORY_CACHE` and `_DISK_CACHE`, plus the
allocation counter for fresh `joblib.Memory` objects. -/
structure CacheGlobals where
  memoryCache : Option CacheObj
  diskCache : Option CacheObj
  nextId : Nat
deriving DecidableEq

/-- `get_cache_name` from `helpers/cache.py`. -/
def getCacheName (cacheType : String) (tag : Option String) : String :=
  let cacheName := "tmp.joblib" ++ "." ++ cacheType
  match tag with
  | some t => cacheName ++ "." ++ t
  | none => cacheName

/-- `get_cache_path`: under the tmpfs root for the memory cache, under the
git client root for the disk cache. -/
def getCachePath (gitRoot : String) (cacheType : String) (tag : Option String) :
    String :=
  let rootPath := if cacheType = "mem" then "/mnt/tmpfs" else gitRoot
  rootPath ++ "/" ++ getCacheName cacheType tag

/-- `get_global_cache`. -/
def getGlobalCache (g : CacheGlobals) (cacheType : String) : Option CacheObj :=
  if cacheType = "mem" then g.memoryCache else g.diskCache

/-- `set_global_cache`. -/
def setGlobalCache (g : CacheGlobals) (cacheType : String) (c : CacheObj) :
    CacheGlobals :=
  if cacheType = "mem" then { g with memoryCache := some c }
  else { g with diskCache := some c }

/-- `get_cache`: with `tag = None` return the installed global backend, or
construct a fresh `joblib.Memory`, install it as the global and return it;
with a tag build a one-off backend without touching the globals. -/
def getCache (gitRoot : String) (g : CacheGlobals) (cacheType : String)
    (tag : Option String) : CacheObj × CacheGlobals :=
  match tag with
  | none =>
    match getGlobalCache g cacheType with
    | some c => (c, g)
    | none =>
      let c : CacheObj := ⟨g.nextId, getCachePath gitRoot cacheType none⟩
      (c, setGlobalCache { g with nextId := g.nextId + 1 } cacheType c)
  | some _ =>
    (⟨g.nextId, getCachePath gitRoot cacheType tag⟩,
     { g with nextId := g.nextId + 1 })

/-- The part of `Cached.__init__` that obtains the two backends:
`get_cache("disk", tag)` followed by `get_cache("mem", tag)`. -/
def cachedInitCaches (gitRoot : String) (g : CacheGlobals) (tag : Option String) :
    (CacheObj × CacheObj) × CacheGlobals :=
  let rd := getCache gitRoot g "disk" tag
  let rm := getCache gitRoot rd.2 "mem" tag
  ((rd.1, rm.1), rm.2)

/-!
Embedding of `im/ccxt/data/extract/download_historical.py`.
-/

/-- `_ALL_EXCHANGE_IDS` from download_historical.py. -/
def allExchangeIds : List String := ["binance", "kucoin"]

/-- Split a list of characters at every separator character; the
separators are dropped and empty pieces are kept, as in `String.split`. -/
def splitChars (p : Char → Bool) : List Char → List (List Char)
  | [] => [[]]
  | c :: cs =>
    if p c then [] :: splitChars p cs
    else
      match splitChars p cs with
      | [] => [[c]]
      | t :: ts => (c :: t) :: ts

/-- Python `str.split()` with no argument, applied to space-separated CLI
arguments: split on spaces and drop the empty pieces. -/
def pySplit (s : String) : List String :=
  ((splitChars (fun c => c == ' ') s.toList).filter
    (fun cs => !cs.isEmpty)).map (fun cs => String.mk cs)

/-- The exchange ids iterated by `_main`: all supported exchanges for the
literal argument "all", else the space-separated ids given. -/
def exchangeIdsOf (exchangeIdsArg : String) : List String :=
  if exchangeIdsArg = "all" then allExchangeIds else pySplit exchangeIdsArg

/-- The currency pairs iterated for one exchange: all pairs of the exchange
for the literal "all", else the given pairs filtered to those present in
the exchange. -/
def presentPairsOf (exchangePairs : List String) (currencyPairsArg : String) :
    List String :=
  if currencyPairsArg = "all" then exchangePairs
  else (pySplit currencyPairsArg).filter (fun c => exchangePairs.contains c)

/-- Python `pair.replace("/", "_")`. -/
def replaceSlash (s : String) : String :=
  String.mk (s.toList.map (fun c => if c = '/' then '_' else c))

/-- One invocation of `exchange.download_ohlcv_data` for a given exchange
id and currency pair. -/
structure DownloadCall where
  exchangeId : String
  pair : String
deriving DecidableEq

/-- Path of the output file written for one (exchange, pair):
`dst_dir/<exchange_id>_<pair with / replaced by _>.csv.gz`. -/
def fileNameFor (dstDir exchangeId pair : String) : String :=
  dstDir ++ "/" ++ exchangeId ++ "_" ++ replaceSlash pair ++ ".csv.gz"

/-- The work performed by `_main` of download_historical.py: the nested
loops issue one `download_ohlcv_data` call per (exchange id, present pair)
and write one csv.gz file per call, in order.  `pairsOfExchange` gives
`exchange.currency_pairs` for each exchange id. -/
def mainHistorical (dstDir exchangeIdsArg currencyPairsArg : String)
    (pairsOfExchange : String → List String) : List (DownloadCall × String) :=
  (exchangeIdsOf exchangeIdsArg).flatMap (fun eid =>
    (presentPairsOf (pairsOfExchange eid) currencyPairsArg).map (fun pair =>
      (⟨eid, pair⟩, fileNameFor dstDir eid pair)))

/-- The sequence of `download_ohlcv_data` calls issued by `_main`. -/
def mainHistoricalCalls (dstDir exchangeIdsArg currencyPairsArg : String)
    (pairsOfExchange : String → List String) : List DownloadCall :=
  (mainHistorical dstDir exchangeIdsArg currencyPairsArg pairsOfExchange).map
    Prod.fst

/-!
Embedding of `vendors2/kibot/metadata/extract/download_adjustments.py`.
-/

/-- One HTTP request issued by download_adjustments.py against the kibot
API endpoint. -/
inductive KibotRequest where
  | login (user password : String)
  | adjustments (symbol startDate : String)
deriving DecidableEq

/-- The status codes accepted by the login assertion (login successful,
user already logged in). -/
def acceptedStatusCodes : List Int := [200, 407]

/-- `_main` of download_adjustments.py as the sequence of HTTP requests it
issues and the name of the file it writes: one login request; if the
status code parsed from the login response is not accepted, `dassert_in`
aborts the script (no retry, no file); otherwise exactly one adjustments
request is issued and the response is written to
`downloads_<start_date>.txt` (the final `aws s3 cp` shell upload of that
file is outside the HTTP-request trace modelled here). -/
def mainAdjustments (user password startDate : String) (loginStatus : Int) :
    List KibotRequest × Option String :=
  let requests := [KibotRequest.login user password]
  if loginStatus ∈ acceptedStatusCodes then
    (requests ++ [KibotRequest.adjustments "allsymbols" startDate],
     some ("downloads_" ++ startDate ++ ".txt"))
  else
    (requests, none)

/-!
Embedding of `dev_scripts/notebooks/publish_notebook.py`: the shell
commands the script hands to `si.system`, in order.
-/

/-- Python `os.path.basename`: the part after the last slash. -/
def basename (p : String) : String :=
  String.mk (((splitChars (fun c => c == '/') p.toList).getLast?).getD
    p.toList)

/-- Python `os.path.splitext` for plain file names: split off the part
from the last dot on. -/
def splitExt (p : String) : String × String :=
  let parts := splitChars (fun c => c == '.') p.toList
  if parts.length ≤ 1 then (p, "")
  else (String.mk (List.intercalate ['.'] parts.dropLast),
        String.mk ('.' :: (parts.getLast?).getD []))

/-- `_add_tag` from publish_notebook.py: insert `.tag.timestamp` (or just
`.timestamp` when the tag is empty) before the extension; `now` is the
formatted `datetime.datetime.now()`. -/
def addTag (now : String) (fileName tag : String) : String :=
  let ne := splitExt (basename fileName)
  let tag1 := if tag = "" then tag else "." ++ tag
  let tag2 := tag1 ++ "." ++ now
  ne.1 ++ tag2 ++ ne.2

/-- `_export_notebook_to_html`: compute the destination HTML path and
invoke `jupyter nbconvert` on it via `si.system`; returns the destination
path and the command issued.  `dirOfReal` models
`os.path.dirname(os.path.realpath(.))`, which depends on the file
system. -/
def exportNotebookToHtml (dirOfReal : String → String) (now : String)
    (ipynbFileName tag : String) : String × List String :=
  let dirPath := dirOfReal ipynbFileName
  let fileName := (splitExt (basename ipynbFileName)).1
  let htmlFileName := addTag now (fileName ++ ".html") tag
  let dstFileName := dirPath ++ "/" ++ htmlFileName
  (dstFileName,
   ["jupyter nbconvert " ++ ipynbFileName ++ " --to html --output "
      ++ dstFileName])

/-- `_export_notebook_to_dir`: convert to HTML in place via
`_export_notebook_to_html` and move the result to the destination
directory with an `mv` command. -/
def exportNotebookToDir (dirOfReal : String → String) (now : String)
    (ipynbFileName tag dstDir : String) : String × List String :=
  let r := exportNotebookToHtml dirOfReal now ipynbFileName tag
  let htmlDstPath := dstDir ++ "/" ++ basename r.1
  (htmlDstPath, r.2 ++ ["mv " ++ r.1 ++ " " ++ htmlDstPath])

/-- `_main` of publish_notebook.py for the local-file case (where
`_get_path` returns `args.file` unchanged): the list of shell commands
passed to `si.system`, plus, for `publish_on_s3`, the (local, remote) pair
handed to the in-process `s3fs.put` library call — which is not a shell
command.  Returns `none` for an action outside the four modelled ones. -/
def mainPublish (dirOfReal : String → String) (now : String)
    (action file tag awsProfile publishNotebookDir s3Path : String) :
    Option (List String × Option (String × String)) :=
  if action = "open" then
    some (["aws s3 ls --profile " ++ awsProfile ++ " " ++ file,
           "aws s3 cp --profile " ++ awsProfile ++ " " ++ file ++ " "
             ++ basename file], none)
  else if action = "convert" then
    some ((exportNotebookToDir dirOfReal now file tag ".").2, none)
  else if action = "publish_locally" then
    some ((exportNotebookToDir dirOfReal now file tag publishNotebookDir).2,
          none)
  else if action = "publish_on_s3" then
    let r := exportNotebookToDir dirOfReal now file tag "."
    some (r.2, some (r.1, s3Path ++ "/" ++ basename r.1))
  else none

/-!
Spec-level model of the DAG runners.
-/

/-- A dataflow DAG: the nodes and the directed edges built by a
`DagBuilder`. -/
structure Dag (N : Type) where
  nodes : List N
  edges : List (N × N)
deriving DecidableEq

/-- The state a DAG runner threads through its iteration: the DAG built
beforehand by the supplied `dag_builder`, and the learned fit state. -/
structure RunnerState (N S : Type) where
  dag : Dag N
  fitState : S

/-- Modelled from the spec: `dataflow/core/runners.py` (with
`RollingFitPredictDagRunner`, `IncrementalDagRunner` and
`RealTimeDagRunner`) is not among the sources; only its test
`dataflow/core/test/test_runners.py` is.  Per the spec the runners
"traverse a pre-built static graph and do not implement a scheduler of
their own": one step runs the fixed, fully built DAG (e.g.
`run_leq_node` on its sink) on one prediction interval, producing a
result bundle and a new fit state, and leaves the graph itself
untouched. -/
def dagRunnerStep {N R S I : Type} (runSink : Dag N → S → I → R × S)
    (st : RunnerState N S) (i : I) : R × RunnerState N S :=
  let r := runSink st.dag st.fitState i
  (r.1, { st with fitState := r.2 })

/-- Modelled from the spec: the whole runner loop (`fit_predict` /
`predict`) iterates the prediction intervals in order over the fixed
graph, collecting one result bundle per interval. -/
def dagRunnerRun {N R S I : Type} (runSink : Dag N → S → I → R × S)
    (st : RunnerState N S) : List I → List R × RunnerState N S
  | [] => ([], st)
  | i :: rest =>
    let r := dagRunnerStep runSink st i
    let rs := dagRunnerRun runSink r.2 rest
    (r.1 :: rs.1, rs.2)

/-!
Concrete fixtures used by the witness theorems.
-/

/-- Concrete wrapped function used in witnesses: length of the string
argument. -/
def testFS : FuncSpec String Int :=
  ⟨fun s => (s.length : Int), "def f: length", false, "recorded", "hashed"⟩

/-- Concrete configuration with both cache levels on. -/
def testCfg : CachedCfg String Int := ⟨testFS, true, true⟩

/-- Concrete wrapped function over heap addresses used in the isolation
witness: always returns the object at address 0. -/
def testFSAddr : FuncSpec String Nat :=
  ⟨fun _ => 0, "def g: addr", false, "recorded", "hashed"⟩

/-- Concrete heap-level configuration with both cache levels on. -/
def testCfgAddr : CachedCfg String Nat := ⟨testFSAddr, true, true⟩

/-- Cached state with empty backends. -/
def emptyState : CachedState String Int := ⟨⟨[], none⟩, ⟨[], none⟩, true, true⟩

/-- Cached state over heap addresses with empty backends. -/
def emptyStateAddr : CachedState String Nat := ⟨⟨[], none⟩, ⟨[], none⟩, true, true⟩

/-- Heap with one object: payload 7 at address 0. -/
def testHeap : Heap Int := ⟨[(0, 7)], 1⟩

/-- Cached state whose memory backend holds a valid entry for "x". -/
def hitState : CachedState String Int :=
  ⟨⟨[("x", 3)], some "def f: length"⟩, ⟨[], none⟩, true, true⟩

/-- Cached state whose memory backend is stale for "x" (its recorded
source differs from `testFS.funcCode`) and whose disk backend holds a
valid entry for "x". -/
def mixedState : CachedState String Int :=
  ⟨⟨[("x", 42)], some "old source"⟩, ⟨[("x", 5)], some "def f: length"⟩,
   true, true⟩

/-- Concrete registry state with no global caches installed. -/
def emptyGlobals : CacheGlobals := ⟨none, none, 0⟩

/-- Concrete registry state with both global caches installed. -/
def filledGlobals : CacheGlobals := ⟨some ⟨0, "mp"⟩, some ⟨1, "dp"⟩, 2⟩

/-- Concrete `exchange.currency_pairs` map used in the downloader
witness. -/
def testPairsOf : String → List String :=
  fun _ => ["BTC/USDT", "ETH/USDT", "ADA/USDT"]

/-!
Helper lemmas about the cache embedding.
-/

theorem assocFind_mem {K V : Type} [DecidableEq K] {l : List (K × V)} {k : K}
    {v : V} (h : assocFind l k = some v) : (k, v) ∈ l := by
  induction l with
  | nil => simp [assocFind] at h
  | cons kv rest ih =>
    obtain ⟨k1, v1⟩ := kv
    by_cases hk : k1 = k
    · subst hk
      simp [assocFind] at h
      simp [h]
    · simp [assocFind, hk] at h
      exact List.mem_cons_of_mem _ (ih h)

theorem hasCachedVersion_isSome {A V : Type} [DecidableEq A]
    {fs : FuncSpec A V} {b : Backend A V} {a : A}
    (h : hasCachedVersion fs b a = true) :
    ∃ v, assocFind b.items a = some v := by
  unfold hasCachedVersion at h
  cases hv : assocFind b.items a with
  | none => rw [hv] at h; simp at h
  | some v => exact ⟨v, rfl⟩

theorem assocFind_store {A V : Type} [DecidableEq A]
    (fs : FuncSpec A V) (b : Backend A V) (a : A) (v : V) :
    assocFind (storeCachedVersion fs b a v).items a = some v := by
  simp [storeCachedVersion, assocFind]

theorem hasCachedVersion_store {A V : Type} [DecidableEq A]
    (fs : FuncSpec A V) (b : Backend A V) (a : A) (v : V) :
    hasCachedVersion fs (storeCachedVersion fs b a v) a = true := by
  unfold hasCachedVersion
  rw [assocFind_store]
  simp [storeCachedVersion]

theorem memorizedCall_of_valid {A V : Type} [DecidableEq A]
    {fs : FuncSpec A V} {b : Backend A V} {a : A} {v : V}
    (hv : assocFind b.items a = some v)
    (h : hasCachedVersion fs b a = true) :
    memorizedCall fs b a = (v, b, false) := by
  unfold memorizedCall
  rw [hv]
  simp [h]

theorem memorizedCall_of_invalid {A V : Type} [DecidableEq A]
    {fs : FuncSpec A V} {b : Backend A V} {a : A}
    (h : hasCachedVersion fs b a = false) :
    (memorizedCall fs b a).1 = fs.f a ∧
    (memorizedCall fs b a).2.2 = true ∧
    assocFind (memorizedCall fs b a).2.1.items a = some (fs.f a) ∧
    (memorizedCall fs b a).2.1.storedFuncCode = some fs.funcCode := by
  unfold memorizedCall
  cases hv : assocFind b.items a with
  | none => simp [assocFind]
  | some v => simp [h, assocFind]

theorem memorizedCall_eq_of_invalid {A V : Type} [DecidableEq A]
    {fs : FuncSpec A V} {b : Backend A V} {a : A}
    (h : hasCachedVersion fs b a = false) :
    memorizedCall fs b a = (fs.f a, (memorizedCall fs b a).2.1, true) := by
  obtain ⟨h1, h2, -, -⟩ := memorizedCall_of_invalid h
  exact Prod.ext h1 (Prod.ext rfl h2)

theorem cachedCall_mem_hit {A V : Type} [DecidableEq A]
    {cfg : CachedCfg A V} {s : CachedState A V} {a : A} {v : V}
    (hm : cfg.useMemCache = true)
    (h : hasCachedVersion cfg.fs s.mem a = true)
    (hv : assocFind s.mem.items a = some v) :
    cachedCall cfg true s a = (v, resetCacheTracing cfg s, false) := by
  simp [cachedCall, executeFunc, hm, executeFuncFromMemCache, h,
        memorizedCall_of_valid hv h, resetCacheTracing]

theorem cachedCall_mem_miss_disk_hit {A V : Type} [DecidableEq A]
    {cfg : CachedCfg A V} {s : CachedState A V} {a : A} {v : V}
    (hm : cfg.useMemCache = true) (hd : cfg.useDiskCache = true)
    (h1 : hasCachedVersion cfg.fs s.mem a = false)
    (h2 : hasCachedVersion cfg.fs s.disk a = true)
    (hv : assocFind s.disk.items a = some v) :
    cachedCall cfg true s a =
      (v, ⟨storeCachedVersion cfg.fs s.mem a v, s.disk, false, true⟩,
       false) := by
  simp [cachedCall, executeFunc, hm, executeFuncFromMemCache, h1, hd,
        executeFuncFromDiskCache, h2, memorizedCall_of_valid hv h2,
        resetCacheTracing]

theorem cachedCall_mem_miss_disk_miss {A V : Type} [DecidableEq A]
    {cfg : CachedCfg A V} {s : CachedState A V} {a : A}
    (hm : cfg.useMemCache = true) (hd : cfg.useDiskCache = true)
    (h1 : hasCachedVersion cfg.fs s.mem a = false)
    (h2 : hasCachedVersion cfg.fs s.disk a = false) :
    cachedCall cfg true s a =
      (cfg.fs.f a,
       ⟨storeCachedVersion cfg.fs s.mem a (cfg.fs.f a),
        (memorizedCall cfg.fs s.disk a).2.1, false, false⟩, true) := by
  obtain ⟨e1, e2, -, -⟩ := memorizedCall_of_invalid h2
  simp [cachedCall, executeFunc, hm, executeFuncFromMemCache, h1, hd,
        executeFuncFromDiskCache, h2, resetCacheTracing, e1, e2]

theorem cachedCall_mem_miss_no_disk {A V : Type} [DecidableEq A]
    {cfg : CachedCfg A V} {s : CachedState A V} {a : A}
    (hm : cfg.useMemCache = true) (hd : cfg.useDiskCache = false)
    (h1 : hasCachedVersion cfg.fs s.mem a = false) :
    cachedCall cfg true s a =
      (cfg.fs.f a,
       ⟨storeCachedVersion cfg.fs (memorizedCall cfg.fs s.mem a).2.1 a
          (cfg.fs.f a), s.disk, false, false⟩, true) := by
  obtain ⟨e1, e2, -, -⟩ := memorizedCall_of_invalid h1
  simp [cachedCall, executeFunc, hm, executeFuncFromMemCache, h1, hd,
        resetCacheTracing, e1, e2]

theorem cachedCall_no_mem_disk_hit {A V : Type} [DecidableEq A]
    {cfg : CachedCfg A V} {s : CachedState A V} {a : A} {v : V}
    (hm : cfg.useMemCache = false) (hd : cfg.useDiskCache = true)
    (h2 : hasCachedVersion cfg.fs s.disk a = true)
    (hv : assocFind s.disk.items a = some v) :
    cachedCall cfg true s a = (v, ⟨s.mem, s.disk, false, true⟩, false) := by
  simp [cachedCall, executeFunc, hm, hd, executeFuncFromDiskCache, h2,
        memorizedCall_of_valid hv h2, resetCacheTracing]

theorem cachedCall_no_mem_disk_miss {A V : Type} [DecidableEq A]
    {cfg : CachedCfg A V} {s : CachedState A V} {a : A}
    (hm : cfg.useMemCache = false) (hd : cfg.useDiskCache = true)
    (h2 : hasCachedVersion cfg.fs s.disk a = false) :
    cachedCall cfg true s a =
      (cfg.fs.f a,
       ⟨s.mem, (memorizedCall cfg.fs s.disk a).2.1, false, false⟩, true) := by
  obtain ⟨e1, e2, -, -⟩ := memorizedCall_of_invalid h2
  simp [cachedCall, executeFunc, hm, hd, executeFuncFromDiskCache, h2,
        resetCacheTracing, e1, e2]

theorem cachedCall_no_cache_cfg {A V : Type} [DecidableEq A]
    {cfg : CachedCfg A V} {s : CachedState A V} {a : A}
    (hm : cfg.useMemCache = false) (hd : cfg.useDiskCache = false) :
    cachedCall cfg true s a =
      (cfg.fs.f a, ⟨s.mem, s.disk, false, false⟩, true) := by
  simp [cachedCall, executeFunc, hm, hd, resetCacheTracing]

theorem cachedCall_disabled {A V : Type} [DecidableEq A]
    (cfg : CachedCfg A V) (s : CachedState A V) (a : A) :
    cachedCall cfg false s a =
      (cfg.fs.f a, ⟨s.mem, s.disk, false, false⟩, true) := by
  simp [cachedCall]

theorem mem_entry_after_call {A V : Type} [DecidableEq A]
    (cfg : CachedCfg A V) (s : CachedState A V) (a : A)
    (hm : cfg.useMemCache = true) :
    assocFind (callState cfg true s a).mem.items a
        = some (callResult cfg true s a) ∧
    hasCachedVersion cfg.fs (callState cfg true s a).mem a = true := by
  cases h1 : hasCachedVersion cfg.fs s.mem a with
  | true =>
    obtain ⟨v, hv⟩ := hasCachedVersion_isSome h1
    simp [callState, callResult, cachedCall_mem_hit hm h1 hv,
          resetCacheTracing, hv, h1]
  | false =>
    cases hd : cfg.useDiskCache with
    | true =>
      cases h2 : hasCachedVersion cfg.fs s.disk a with
      | true =>
        obtain ⟨v, hv⟩ := hasCachedVersion_isSome h2
        simp [callState, callResult,
              cachedCall_mem_miss_disk_hit hm hd h1 h2 hv,
              assocFind_store, hasCachedVersion_store]
      | false =>
        simp [callState, callResult,
              cachedCall_mem_miss_disk_miss hm hd h1 h2,
              assocFind_store, hasCachedVersion_store]
    | false =>
      simp [callState, callResult, cachedCall_mem_miss_no_disk hm hd h1,
            assocFind_store, hasCachedVersion_store]

/-- C1: with `use_mem_cache` and `use_disk_cache` both set and caching
globally enabled, a call of the `Cached` wrapper consults the memory cache
first: when the memory backend holds a valid entry the value is served from
it, the intrinsic function is not executed and the disk backend is left
untouched; when only the disk backend holds a valid entry the value is
served from disk without executing the intrinsic function; the intrinsic
function is executed — and its value stored in both backends — only when
neither backend holds a valid entry. -/
theorem c1_two_level_lookup_order {A V : Type} [DecidableEq A]
    (cfg : CachedCfg A V) (s : CachedState A V) (a : A)
    (hm : cfg.useMemCache = true) (hd : cfg.useDiskCache = true) :
    (hasCachedVersion cfg.fs s.mem a = true →
      callExecuted cfg true s a = false ∧
      assocFind s.mem.items a = some (callResult cfg true s a) ∧
      (callState cfg true s a).disk = s.disk) ∧
    (hasCachedVersion cfg.fs s.mem a = false →
     hasCachedVersion cfg.fs s.disk a = true →
      callExecuted cfg true s a = false ∧
      assocFind s.disk.items a = some (callResult cfg true s a)) ∧
    (hasCachedVersion cfg.fs s.mem a = false →
     hasCachedVersion cfg.fs s.disk a = false →
      callExecuted cfg true s a = true ∧
      callResult cfg true s a = cfg.fs.f a ∧
      assocFind (callState cfg true s a).mem.items a
          = some (callResult cfg true s a) ∧
      assocFind (callState cfg true s a).disk.items a
          = some (callResult cfg true s a)) := by
  refine ⟨fun h => ?_, fun h1 h2 => ?_, fun h1 h2 => ?_⟩
  · obtain ⟨v, hv⟩ := hasCachedVersion_isSome h
    simp [callExecuted, callResult, callState, cachedCall_mem_hit hm h hv,
          hv, resetCacheTracing]
  · obtain ⟨v, hv⟩ := hasCachedVersion_isSome h2
    simp [callExecuted, callResult, callState,
          cachedCall_mem_miss_disk_hit hm hd h1 h2 hv, hv]
  · obtain ⟨-, -, hfind, -⟩ := memorizedCall_of_invalid h2
    simp [callExecuted, callResult, callState,
          cachedCall_mem_miss_disk_miss hm hd h1 h2, assocFind_store, hfind]

/-- Witness for C1: the three branches exercised on concrete states — a
memory hit, a memory miss with disk hit (the memory entry is stale), and a
double miss. -/
theorem c1_two_level_lookup_order_witness :
    (testCfg.useMemCache = true ∧ testCfg.useDiskCache = true) ∧
    (hasCachedVersion testFS hitState.mem "x" = true ∧
      (callExecuted testCfg true hitState "x" = false ∧
       assocFind hitState.mem.items "x"
           = some (callResult testCfg true hitState "x") ∧
       (callState testCfg true hitState "x").disk = hitState.disk)) ∧
    (hasCachedVersion testFS mixedState.mem "x" = false ∧
     hasCachedVersion testFS mixedState.disk "x" = true ∧
      (callExecuted testCfg true mixedState "x" = false ∧
       assocFind mixedState.disk.items "x"
           = some (callResult testCfg true mixedState "x"))) ∧
    (hasCachedVersion testFS emptyState.mem "x" = false ∧
     hasCachedVersion testFS emptyState.disk "x" = false ∧
      (callExecuted testCfg true emptyState "x" = true ∧
       callResult testCfg true emptyState "x" = testFS.f "x" ∧
       assocFind (callState testCfg true emptyState "x").mem.items "x"
           = some (callResult testCfg true emptyState "x") ∧
       assocFind (callState testCfg true emptyState "x").disk.items "x"
           = some (callResult testCfg true emptyState "x"))) :=
  ⟨⟨by decide, by decide⟩,
   ⟨by decide,
    (c1_two_level_lookup_order testCfg hitState "x" (by decide)
        (by decide)).1 (by decide)⟩,
   ⟨by decide, by decide,
    (c1_two_level_lookup_order testCfg mixedState "x" (by decide)
        (by decide)).2.1 (by decide) (by decide)⟩,
   ⟨by decide, by decide,
    (c1_two_level_lookup_order testCfg emptyState "x" (by decide)
        (by decide)).2.2 (by decide) (by decide)⟩⟩

/-- C2: for any cache backend (memory or disk), if the backend contains an
item for the digests but the function's current source fails the fast hash
check against joblib's recorded function hash and differs from the source
stored alongside the entry, then `_has_cached_version` returns False and
the joblib call recomputes the value rather than serving the stale entry;
if the stored source matches the current source, it returns True. -/
theorem c2_source_change_invalidates {A V : Type} [DecidableEq A]
    (fs : FuncSpec A V) (b : Backend A V) (a : A) (v : V)
    (hv : assocFind b.items a = some v) :
    ((fs.inFunctionHashes = false ∨ fs.hashFunc ≠ fs.recordedHash) →
     b.storedFuncCode ≠ some fs.funcCode →
      hasCachedVersion fs b a = false ∧
      (memorizedCall fs b a).2.2 = true ∧
      (memorizedCall fs b a).1 = fs.f a) ∧
    (b.storedFuncCode = some fs.funcCode →
      hasCachedVersion fs b a = true) := by
  constructor
  · intro hfast hold
    have hc : ¬ (fs.inFunctionHashes = true ∧ fs.hashFunc = fs.recordedHash) := by
      rcases hfast with h | h
      · rintro ⟨h1, -⟩
        rw [h] at h1
        exact Bool.false_ne_true h1
      · rintro ⟨-, h2⟩
        exact h h2
    have hfalse : hasCachedVersion fs b a = false := by
      unfold hasCachedVersion
      rw [hv, if_neg hc]
      cases hsf : b.storedFuncCode with
      | none => rfl
      | some old =>
        have hne : fs.funcCode ≠ old := fun he => hold (by rw [hsf, he])
        simp [hne]
    obtain ⟨e1, e2, -, -⟩ := memorizedCall_of_invalid hfalse
    exact ⟨hfalse, e2, e1⟩
  · intro hold
    unfold hasCachedVersion
    rw [hv]
    simp [hold]

/-- Witness for C2: a backend containing an entry for "x" with a stale
recorded source yields False and recomputation, one with the matching
source yields True. -/
theorem c2_source_change_invalidates_witness :
    (assocFind mixedState.mem.items "x" = some 42 ∧
     (testFS.inFunctionHashes = false ∨ testFS.hashFunc ≠ testFS.recordedHash) ∧
     mixedState.mem.storedFuncCode ≠ some testFS.funcCode ∧
      (hasCachedVersion testFS mixedState.mem "x" = false ∧
       (memorizedCall testFS mixedState.mem "x").2.2 = true ∧
       (memorizedCall testFS mixedState.mem "x").1 = testFS.f "x")) ∧
    (assocFind hitState.mem.items "x" = some 3 ∧
     hitState.mem.storedFuncCode = some testFS.funcCode ∧
      hasCachedVersion testFS hitState.mem "x" = true) :=
  ⟨⟨by decide, by decide, by decide,
    (c2_source_change_invalidates testFS mixedState.mem "x" 42 (by decide)).1
      (by decide) (by decide)⟩,
   ⟨by decide, by decide,
    (c2_source_change_invalidates testFS hitState.mem "x" 3 (by decide)).2
      (by decide)⟩⟩

/-- C3: after every call of the `Cached` wrapper, `get_last_cache_accessed`
reports exactly the backend that satisfied the call: "mem" when the value
was served from the memory cache, "disk" when it was served from the disk
cache, "no_cache" exactly when the intrinsic function was executed — in
particular for every call made while caching is globally disabled. -/
theorem c3_last_cache_accessed_correct {A V : Type} [DecidableEq A]
    (cfg : CachedCfg A V) (s : CachedState A V) (a : A) :
    (getLastCacheAccessed (callState cfg false s a) = "no_cache" ∧
      callExecuted cfg false s a = true) ∧
    getLastCacheAccessed (callState cfg true s a) = callSource cfg s a ∧
    (callExecuted cfg true s a = true ↔ callSource cfg s a = "no_cache") ∧
    (callSource cfg s a = "mem" →
      assocFind s.mem.items a = some (callResult cfg true s a)) ∧
    (callSource cfg s a = "disk" →
      assocFind s.disk.items a = some (callResult cfg true s a)) ∧
    (callSource cfg s a = "no_cache" →
      callResult cfg true s a = cfg.fs.f a) := by
  constructor
  · constructor
    · simp [callState, cachedCall_disabled, getLastCacheAccessed]
    · simp [callExecuted, cachedCall_disabled]
  · cases hm : cfg.useMemCache with
    | true =>
      cases h1 : hasCachedVersion cfg.fs s.mem a with
      | true =>
        obtain ⟨v, hv⟩ := hasCachedVersion_isSome h1
        simp [callState, callExecuted, callResult,
              cachedCall_mem_hit hm h1 hv, resetCacheTracing,
              getLastCacheAccessed, hm, callSource, h1, hv]
      | false =>
        cases hd : cfg.useDiskCache with
        | true =>
          cases h2 : hasCachedVersion cfg.fs s.disk a with
          | true =>
            obtain ⟨v, hv⟩ := hasCachedVersion_isSome h2
            simp [callState, callExecuted, callResult,
                  cachedCall_mem_miss_disk_hit hm hd h1 h2 hv,
                  getLastCacheAccessed, callSource, hm, hd, h1, h2, hv]
          | false =>
            simp [callState, callExecuted, callResult,
                  cachedCall_mem_miss_disk_miss hm hd h1 h2,
                  getLastCacheAccessed, callSource, hm, hd, h1, h2]
        | false =>
          simp [callState, callExecuted, callResult,
                cachedCall_mem_miss_no_disk hm hd h1,
                getLastCacheAccessed, callSource, hm, hd, h1]
    | false =>
      cases hd : cfg.useDiskCache with
      | true =>
        cases h2 : hasCachedVersion cfg.fs s.disk a with
        | true =>
          obtain ⟨v, hv⟩ := hasCachedVersion_isSome h2
          simp [callState, callExecuted, callResult,
                cachedCall_no_mem_disk_hit hm hd h2, hv,
                getLastCacheAccessed, callSource, hm, hd, h2]
        | false =>
          simp [callState, callExecuted, callResult,
                cachedCall_no_mem_disk_miss hm hd h2,
                getLastCacheAccessed, callSource, hm, hd, h2]
      | false =>
        simp [callState, callExecuted, callResult,
              cachedCall_no_cache_cfg hm hd,
              getLastCacheAccessed, callSource, hm, hd]

/-- Witness for C3: a memory hit reports "mem", a stale-memory disk hit
reports "disk", a double miss reports "no_cache", as does a call with
caching disabled. -/
theorem c3_last_cache_accessed_correct_witness :
    (callSource testCfg hitState "x" = "mem" ∧
      assocFind hitState.mem.items "x"
          = some (callResult testCfg true hitState "x")) ∧
    (callSource testCfg mixedState "x" = "disk" ∧
      assocFind mixedState.disk.items "x"
          = some (callResult testCfg true mixedState "x")) ∧
    (callSource testCfg emptyState "x" = "no_cache" ∧
      callResult testCfg true emptyState "x" = testFS.f "x") ∧
    getLastCacheAccessed (callState testCfg false hitState "x") = "no_cache" :=
  ⟨⟨by decide,
    (c3_last_cache_accessed_correct testCfg hitState "x").2.2.2.1 (by decide)⟩,
   ⟨by decide,
    (c3_last_cache_accessed_correct testCfg mixedState "x").2.2.2.2.1
      (by decide)⟩,
   ⟨by decide,
    (c3_last_cache_accessed_correct testCfg emptyState "x").2.2.2.2.2
      (by decide)⟩,
   (c3_last_cache_accessed_correct testCfg hitState "x").1.1⟩

/-- C4: `Cached` memoizes — with the wrapped function's source unchanged
between the calls (the same `FuncSpec`), caching enabled and both levels
on, two consecutive calls with equal arguments run the intrinsic function
at most once: the second call is satisfied from the memory cache and
returns the first call's value. -/
theorem c4_consecutive_calls_memoize {A V : Type} [DecidableEq A]
    (cfg : CachedCfg A V) (s : CachedState A V) (a : A)
    (hm : cfg.useMemCache = true) (_hd : cfg.useDiskCache = true) :
    callResult cfg true (callState cfg true s a) a = callResult cfg true s a ∧
    callExecuted cfg true (callState cfg true s a) a = false ∧
    getLastCacheAccessed (callState cfg true (callState cfg true s a) a)
        = "mem" ∧
    Bool.toNat (callExecuted cfg true s a)
      + Bool.toNat (callExecuted cfg true (callState cfg true s a) a) ≤ 1 := by
  obtain ⟨hfind, hvalid⟩ := mem_entry_after_call cfg s a hm
  have h2 := cachedCall_mem_hit hm hvalid hfind
  have hres : callResult cfg true (callState cfg true s a) a
      = callResult cfg true s a := by
    show (cachedCall cfg true (callState cfg true s a) a).1 = _
    rw [h2]
  have hexec : callExecuted cfg true (callState cfg true s a) a = false := by
    show (cachedCall cfg true (callState cfg true s a) a).2.2 = false
    rw [h2]
  have hlast : getLastCacheAccessed
      (callState cfg true (callState cfg true s a) a) = "mem" := by
    show getLastCacheAccessed
        (cachedCall cfg true (callState cfg true s a) a).2.1 = "mem"
    rw [h2]
    simp [resetCacheTracing, getLastCacheAccessed, hm]
  refine ⟨hres, hexec, hlast, ?_⟩
  rw [hexec]
  cases callExecuted cfg true s a <;> simp

/-- Witness for C4 on concrete inputs: both cache flags hold and two
consecutive calls from the empty state memoize. -/
theorem c4_consecutive_calls_memoize_witness :
    testCfg.useMemCache = true ∧ testCfg.useDiskCache = true ∧
    (callResult testCfg true (callState testCfg true emptyState "x") "x"
        = callResult testCfg true emptyState "x" ∧
     callExecuted testCfg true (callState testCfg true emptyState "x") "x"
        = false ∧
     getLastCacheAccessed
        (callState testCfg true (callState testCfg true emptyState "x") "x")
        = "mem" ∧
     Bool.toNat (callExecuted testCfg true emptyState "x")
       + Bool.toNat
          (callExecuted testCfg true (callState testCfg true emptyState "x")
            "x") ≤ 1) :=
  ⟨by decide, by decide,
   c4_consecutive_calls_memoize testCfg emptyState "x" (by decide)
     (by decide)⟩

/-- C5: write-back promotion — after any call with caching enabled and
`use_mem_cache` set (whatever `use_disk_cache` is), the memory backend
holds a valid entry carrying the returned value for the argument digests,
and an immediately repeated identical call is satisfied from memory:
`get_last_cache_accessed` then reports "mem". -/
theorem c5_mem_write_back {A V : Type} [DecidableEq A]
    (cfg : CachedCfg A V) (s : CachedState A V) (a : A)
    (hm : cfg.useMemCache = true) :
    hasCachedVersion cfg.fs (callState cfg true s a).mem a = true ∧
    assocFind (callState cfg true s a).mem.items a
        = some (callResult cfg true s a) ∧
    getLastCacheAccessed (callState cfg true (callState cfg true s a) a)
        = "mem" := by
  obtain ⟨hfind, hvalid⟩ := mem_entry_after_call cfg s a hm
  have h2 := cachedCall_mem_hit hm hvalid hfind
  have hlast : getLastCacheAccessed
      (callState cfg true (callState cfg true s a) a) = "mem" := by
    show getLastCacheAccessed
        (cachedCall cfg true (callState cfg true s a) a).2.1 = "mem"
    rw [h2]
    simp [resetCacheTracing, getLastCacheAccessed, hm]
  exact ⟨hvalid, hfind, hlast⟩

/-- Witness for C5: concrete write-back from the empty state, with the
disk level on, and from a memory-miss state with the disk level off. -/
theorem c5_mem_write_back_witness :
    testCfg.useMemCache = true ∧
    (hasCachedVersion testFS (callState testCfg true emptyState "x").mem "x"
        = true ∧
     assocFind (callState testCfg true emptyState "x").mem.items "x"
        = some (callResult testCfg true emptyState "x") ∧
     getLastCacheAccessed
        (callState testCfg true (callState testCfg true emptyState "x") "x")
        = "mem") :=
  ⟨by decide, c5_mem_write_back testCfg emptyState "x" (by decide)⟩

theorem assocFind_cons_ne {K V : Type} [DecidableEq K] {k1 : K} {v1 : V}
    {l : List (K × V)} {k : K} (hne : k1 ≠ k) :
    assocFind ((k1, v1) :: l) k = assocFind l k := by
  simp [assocFind, hne]

theorem deepcopy_of_lookup {P : Type} {h : Heap P} {r : Nat} {p : P}
    (hl : h.lookup r = some p) :
    h.deepcopy r = (⟨(h.next, p) :: h.data, h.next + 1⟩, h.next) := by
  unfold Heap.lookup at hl
  unfold Heap.deepcopy
  rw [hl]

theorem lookup_lt_next {P : Type} {h : Heap P} (hwf : h.wf) {r : Nat} {p : P}
    (hl : h.lookup r = some p) : r < h.next :=
  hwf (r, p) (assocFind_mem hl)

theorem cachedCallHeap_enabled {A P : Type} [DecidableEq A]
    (cfg : CachedCfg A Nat) (s : CachedState A Nat) (h : Heap P) (a : A) :
    cachedCallHeap cfg true s h a
      = ((h.deepcopy (callResult cfg true s a)).2, callState cfg true s a,
         (h.deepcopy (callResult cfg true s a)).1) := rfl

/-- C6: isolation of stored entries — with caching enabled,
`Cached.__call__` returns `copy.deepcopy` of the cached object: the
returned address is freshly allocated and carries the same payload, all
pre-existing objects are untouched, and after mutating the returned copy a
repeated identical call still returns the original, unmutated payload;
with caching globally disabled no copy is made and the intrinsic
function's object is returned directly, the heap unchanged. -/
theorem c6_deepcopy_isolation {A P : Type} [DecidableEq A]
    (cfg : CachedCfg A Nat) (s : CachedState A Nat) (h : Heap P) (a : A)
    (p q : P) (hm : cfg.useMemCache = true) (hwf : h.wf)
    (hp : h.lookup (callResult cfg true s a) = some p) :
    (cachedCallHeap cfg true s h a).1 = h.next ∧
    (cachedCallHeap cfg true s h a).2.2.lookup
        (cachedCallHeap cfg true s h a).1 = some p ∧
    (∀ r, r < h.next →
      (cachedCallHeap cfg true s h a).2.2.lookup r = h.lookup r) ∧
    (∀ h2, h2 = (cachedCallHeap cfg true s h a).2.2.write
        (cachedCallHeap cfg true s h a).1 q →
      (cachedCallHeap cfg true (cachedCallHeap cfg true s h a).2.1 h2
          a).2.2.lookup
        (cachedCallHeap cfg true (cachedCallHeap cfg true s h a).2.1 h2
          a).1 = some p) ∧
    cachedCallHeap cfg false s h a
      = (cfg.fs.f a, ⟨s.mem, s.disk, false, false⟩, h) := by
  have hvlt : callResult cfg true s a < h.next := lookup_lt_next hwf hp
  have hdc := deepcopy_of_lookup hp
  have hen := cachedCallHeap_enabled cfg s h a
  refine ⟨?_, ?_, ?_, ?_, ?_⟩
  · rw [hen, hdc]
  · rw [hen, hdc]
    simp [Heap.lookup, assocFind]
  · intro r hr
    rw [hen, hdc]
    have hne : h.next ≠ r := fun he => absurd (he ▸ hr) (lt_irrefl _)
    simp only [Heap.lookup]
    exact assocFind_cons_ne hne
  · intro h2 hh2
    obtain ⟨hfind, hvalid⟩ := mem_entry_after_call cfg s a hm
    have hc2 := cachedCall_mem_hit hm hvalid
      hfind
    have hres2 : callResult cfg true (callState cfg true s a) a
        = callResult cfg true s a := by
      show (cachedCall cfg true (callState cfg true s a) a).1 = _
      rw [hc2]
    have hen2 := cachedCallHeap_enabled cfg (callState cfg true s a) h2 a
    have hne : h.next ≠ callResult cfg true s a :=
      fun he => absurd (he ▸ hvlt) (lt_irrefl _)
    have hl2 : h2.lookup (callResult cfg true s a) = some p := by
      rw [hh2, hen, hdc]
      simp only [Heap.write, Heap.lookup]
      rw [assocFind_cons_ne hne, assocFind_cons_ne hne]
      exact hp
    have hdc2 := deepcopy_of_lookup hl2
    have hstate : (cachedCallHeap cfg true s h a).2.1
        = callState cfg true s a := by rw [hen]
    rw [hstate, hen2, hres2, hdc2]
    simp [Heap.lookup, assocFind]
  · simp [cachedCallHeap]

/-- Witness for C6: concrete run over a heap holding payload 7 at address
0, which the wrapped function returns; the copy is fresh, mutation of the
copy to payload 9 does not leak into the second call's result. -/
theorem c6_deepcopy_isolation_witness :
    testCfgAddr.useMemCache = true ∧ Heap.wf testHeap ∧
    testHeap.lookup (callResult testCfgAddr true emptyStateAddr "x")
        = some 7 ∧
    ((cachedCallHeap testCfgAddr true emptyStateAddr testHeap "x").1
        = testHeap.next ∧
     (cachedCallHeap testCfgAddr true emptyStateAddr testHeap "x").2.2.lookup
        (cachedCallHeap testCfgAddr true emptyStateAddr testHeap "x").1
        = some 7 ∧
     (∀ r, r < testHeap.next →
       (cachedCallHeap testCfgAddr true emptyStateAddr testHeap
           "x").2.2.lookup r = testHeap.lookup r) ∧
     (∀ h2, h2 = (cachedCallHeap testCfgAddr true emptyStateAddr testHeap
           "x").2.2.write
         (cachedCallHeap testCfgAddr true emptyStateAddr testHeap "x").1
         (9 : Int) →
       (cachedCallHeap testCfgAddr true
           (cachedCallHeap testCfgAddr true emptyStateAddr testHeap
             "x").2.1 h2 "x").2.2.lookup
         (cachedCallHeap testCfgAddr true
           (cachedCallHeap testCfgAddr true emptyStateAddr testHeap
             "x").2.1 h2 "x").1 = some 7) ∧
     cachedCallHeap testCfgAddr false emptyStateAddr testHeap "x"
        = (testFSAddr.f "x",
           ⟨emptyStateAddr.mem, emptyStateAddr.disk, false, false⟩,
           testHeap)) :=
  ⟨by decide, by unfold Heap.wf; decide, by decide,
   c6_deepcopy_isolation testCfgAddr emptyStateAddr testHeap "x" 7 9
     (by decide) (by unfold Heap.wf; decide) (by decide)⟩

theorem getGlobalCache_set (g : CacheGlobals) (ct : String) (c : CacheObj) :
    getGlobalCache (setGlobalCache g ct c) ct = some c := by
  by_cases hmem : ct = "mem" <;> simp [getGlobalCache, setGlobalCache, hmem]

theorem getCache_installed (gitRoot : String) (g : CacheGlobals)
    (ct : String) {c : CacheObj} (hc : getGlobalCache g ct = some c) :
    getCache gitRoot g ct none = (c, g) := by
  unfold getCache
  rw [hc]

/-- C7: `get_cache(cache_type, None)` is a per-process singleton — when no
global backend is installed the call constructs a fresh `joblib.Memory`
and installs it as the global for that type; when one is installed the
call returns exactly that object and leaves the registry unchanged, so
consecutive calls (and hence all `Cached.__init__` runs with `tag=None`)
share one memory backend and one disk backend; for every non-None tag the
call builds a fresh one-off backend and does not modify either global. -/
theorem c7_get_cache_singleton (gitRoot : String) (g : CacheGlobals)
    (ct : String) :
    (getGlobalCache g ct = none →
      getGlobalCache (getCache gitRoot g ct none).2 ct
          = some (getCache gitRoot g ct none).1 ∧
      (getCache gitRoot g ct none).1.objId = g.nextId) ∧
    (∀ c, getGlobalCache g ct = some c →
      getCache gitRoot g ct none = (c, g)) ∧
    ((getCache gitRoot (getCache gitRoot g ct none).2 ct none).1
        = (getCache gitRoot g ct none).1 ∧
     (getCache gitRoot (getCache gitRoot g ct none).2 ct none).2
        = (getCache gitRoot g ct none).2) ∧
    (∀ t, (getCache gitRoot g ct (some t)).2.memoryCache = g.memoryCache ∧
          (getCache gitRoot g ct (some t)).2.diskCache = g.diskCache ∧
          (getCache gitRoot g ct (some t)).1.objId = g.nextId ∧
          (∀ c, getGlobalCache g ct = some c → c.objId < g.nextId →
            (getCache gitRoot g ct (some t)).1 ≠ c)) ∧
    (cachedInitCaches gitRoot (cachedInitCaches gitRoot g none).2 none).1
        = (cachedInitCaches gitRoot g none).1 := by
  refine ⟨fun h => ?_, fun c hc => getCache_installed gitRoot g ct hc, ?_,
    fun t => ?_, ?_⟩
  · unfold getCache
    rw [h]
    exact ⟨getGlobalCache_set _ ct _, rfl⟩
  · cases hg : getGlobalCache g ct with
    | some c =>
      rw [getCache_installed gitRoot g ct hg, getCache_installed gitRoot g ct hg]
      exact ⟨rfl, rfl⟩
    | none =>
      have h1 : getCache gitRoot g ct none
          = (⟨g.nextId, getCachePath gitRoot ct none⟩,
             setGlobalCache { g with nextId := g.nextId + 1 } ct
               ⟨g.nextId, getCachePath gitRoot ct none⟩) := by
        unfold getCache
        rw [hg]
      have hg2 : getGlobalCache (getCache gitRoot g ct none).2 ct
          = some (getCache gitRoot g ct none).1 := by
        rw [h1]
        exact getGlobalCache_set _ ct _
      rw [getCache_installed gitRoot _ ct hg2]
      exact ⟨rfl, rfl⟩
  · refine ⟨?_, ?_, rfl, ?_⟩
    · by_cases hmem : ct = "mem" <;> simp [getCache, hmem]
    · by_cases hmem : ct = "mem" <;> simp [getCache, hmem]
    · intro c hc hlt he
      have hobj : (getCache gitRoot g ct (some t)).1.objId = g.nextId := rfl
      rw [he] at hobj
      rw [hobj] at hlt
      exact absurd hlt (lt_irrefl _)
  · cases hd : g.diskCache with
    | some cd =>
      cases hm : g.memoryCache with
      | some cm =>
        simp [cachedInitCaches, getCache, getGlobalCache, hd, hm]
      | none =>
        simp [cachedInitCaches, getCache, getGlobalCache, setGlobalCache,
              hd, hm]
    | none =>
      cases hm : g.memoryCache with
      | some cm =>
        simp [cachedInitCaches, getCache, getGlobalCache, setGlobalCache,
              hd, hm]
      | none =>
        simp [cachedInitCaches, getCache, getGlobalCache, setGlobalCache,
              hd, hm]

/-- Witness for C7: the first untagged call on an empty registry installs
the global; on a filled registry the installed object is returned
unchanged; repeated untagged calls and `Cached.__init__` pairs share; a
tagged call builds a fresh object and leaves both globals alone. -/
theorem c7_get_cache_singleton_witness :
    (getGlobalCache emptyGlobals "mem" = none ∧
      (getGlobalCache (getCache "client" emptyGlobals "mem" none).2 "mem"
          = some (getCache "client" emptyGlobals "mem" none).1 ∧
       (getCache "client" emptyGlobals "mem" none).1.objId
          = emptyGlobals.nextId)) ∧
    (getGlobalCache filledGlobals "mem" = some ⟨0, "mp"⟩ ∧
      getCache "client" filledGlobals "mem" none
          = (⟨0, "mp"⟩, filledGlobals)) ∧
    ((getCache "client" (getCache "client" emptyGlobals "mem" none).2 "mem"
        none).1 = (getCache "client" emptyGlobals "mem" none).1) ∧
    ((getCache "client" filledGlobals "mem" (some "t1")).2.memoryCache
        = filledGlobals.memoryCache ∧
     (getCache "client" filledGlobals "mem" (some "t1")).2.diskCache
        = filledGlobals.diskCache ∧
     (getGlobalCache filledGlobals "mem" = some ⟨0, "mp"⟩ ∧
      (0 : Nat) < filledGlobals.nextId ∧
      (getCache "client" filledGlobals "mem" (some "t1")).1
          ≠ (⟨0, "mp"⟩ : CacheObj))) ∧
    (cachedInitCaches "client" (cachedInitCaches "client" emptyGlobals
        none).2 none).1 = (cachedInitCaches "client" emptyGlobals none).1 :=
  ⟨⟨by decide,
    (c7_get_cache_singleton "client" emptyGlobals "mem").1 (by decide)⟩,
   ⟨by decide,
    (c7_get_cache_singleton "client" filledGlobals "mem").2.1 ⟨0, "mp"⟩
      (by decide)⟩,
   (c7_get_cache_singleton "client" emptyGlobals "mem").2.2.1.1,
   ⟨((c7_get_cache_singleton "client" filledGlobals "mem").2.2.2.1 "t1").1,
    ((c7_get_cache_singleton "client" filledGlobals "mem").2.2.2.1
      "t1").2.1,
    by decide, by decide,
    ((c7_get_cache_singleton "client" filledGlobals "mem").2.2.2.1
      "t1").2.2.2 ⟨0, "mp"⟩ (by decide) (by decide)⟩,
   (c7_get_cache_singleton "client" emptyGlobals "mem").2.2.2.2⟩

/-- C8: the downloader scripts are single shot — `_main` of
download_historical.py iterates exchange ids and present currency pairs in
nested loops, issuing exactly one `download_ohlcv_data` call per
(exchange, pair) with no retry, and writes the result to
`dst_dir/<exchange_id>_<pair with / replaced by _>.csv.gz`; `_main` of
download_adjustments.py issues exactly one login request, aborts without
retrying unless the parsed status code is 200 or 407, and otherwise issues
exactly one adjustments request. -/
theorem c8_downloaders_single_shot
    (dstDir eArg cArg : String) (pairsOfExchange : String → List String)
    (hne : (exchangeIdsOf eArg).Nodup)
    (hnp : ∀ e ∈ exchangeIdsOf eArg,
      (presentPairsOf (pairsOfExchange e) cArg).Nodup) :
    ((mainHistoricalCalls dstDir eArg cArg pairsOfExchange).Nodup ∧
     (∀ e p, (⟨e, p⟩ : DownloadCall)
         ∈ mainHistoricalCalls dstDir eArg cArg pairsOfExchange ↔
       e ∈ exchangeIdsOf eArg ∧
       p ∈ presentPairsOf (pairsOfExchange e) cArg) ∧
     (∀ x ∈ mainHistorical dstDir eArg cArg pairsOfExchange,
       x.2 = fileNameFor dstDir x.1.exchangeId x.1.pair)) ∧
    (∀ u pw d : String, ∀ st : Int,
      (mainAdjustments u pw d st).1.count (KibotRequest.login u pw) = 1 ∧
      (st = 200 ∨ st = 407 →
        mainAdjustments u pw d st
          = ([KibotRequest.login u pw,
              KibotRequest.adjustments "allsymbols" d],
             some ("downloads_" ++ d ++ ".txt"))) ∧
      (¬(st = 200 ∨ st = 407) →
        mainAdjustments u pw d st = ([KibotRequest.login u pw], none))) := by
  have hcalls : mainHistoricalCalls dstDir eArg cArg pairsOfExchange
      = (exchangeIdsOf eArg).flatMap (fun eid =>
          (presentPairsOf (pairsOfExchange eid) cArg).map
            (fun pair => (⟨eid, pair⟩ : DownloadCall))) := by
    unfold mainHistoricalCalls mainHistorical
    rw [List.map_flatMap]
    simp only [List.map_map]
    rfl
  refine ⟨⟨?_, ?_, ?_⟩, ?_⟩
  · rw [hcalls, List.nodup_flatMap]
    constructor
    · intro e he
      exact (hnp e he).map
        (fun a b hab => congrArg DownloadCall.pair hab)
    · refine hne.imp ?_
      intro e1 e2 hne12
      simp only [Function.onFun]
      intro a ha1 ha2
      simp only [List.mem_map] at ha1 ha2
      obtain ⟨p1, hp1, rfl⟩ := ha1
      obtain ⟨p2, hp2, heq⟩ := ha2
      exact hne12 (congrArg DownloadCall.exchangeId heq.symm)
  · intro e p
    rw [hcalls]
    simp only [List.mem_flatMap, List.mem_map]
    constructor
    · rintro ⟨e1, he1, p1, hp1, heq⟩
      simp only [DownloadCall.mk.injEq] at heq
      obtain ⟨rfl, rfl⟩ := heq
      exact ⟨he1, hp1⟩
    · rintro ⟨he, hp⟩
      exact ⟨e, he, p, hp, rfl⟩
  · intro x hx
    unfold mainHistorical at hx
    simp only [List.mem_flatMap, List.mem_map] at hx
    obtain ⟨e1, -, p1, -, rfl⟩ := hx
    rfl
  · intro u pw d st
    refine ⟨?_, ?_, ?_⟩
    · by_cases hst : st ∈ acceptedStatusCodes <;>
        simp [mainAdjustments, hst]
    · intro h
      have hst : st ∈ acceptedStatusCodes := by
        rcases h with h | h <;> simp [acceptedStatusCodes, h]
      simp [mainAdjustments, hst]
    · intro h
      push_neg at h
      have hst : st ∉ acceptedStatusCodes := by
        simp [acceptedStatusCodes]
        exact h
      simp [mainAdjustments, hst]

/-- Witness for C8: exchange argument "all" with two requested pairs, of
which both are present on each exchange; and concrete adjustments runs
with an accepted (200) and a rejected (404) login status. -/
theorem c8_downloaders_single_shot_witness :
    (exchangeIdsOf "all").Nodup ∧
    (∀ e ∈ exchangeIdsOf "all",
      (presentPairsOf (testPairsOf e) "BTC/USDT ETH/USDT").Nodup) ∧
    ((mainHistoricalCalls "dst" "all" "BTC/USDT ETH/USDT" testPairsOf).Nodup ∧
     (∀ e p, (⟨e, p⟩ : DownloadCall)
         ∈ mainHistoricalCalls "dst" "all" "BTC/USDT ETH/USDT" testPairsOf ↔
       e ∈ exchangeIdsOf "all" ∧
       p ∈ presentPairsOf (testPairsOf e) "BTC/USDT ETH/USDT") ∧
     (∀ x ∈ mainHistorical "dst" "all" "BTC/USDT ETH/USDT" testPairsOf,
       x.2 = fileNameFor "dst" x.1.exchangeId x.1.pair)) ∧
    (∀ u pw d : String, ∀ st : Int,
      (mainAdjustments u pw d st).1.count (KibotRequest.login u pw) = 1 ∧
      (st = 200 ∨ st = 407 →
        mainAdjustments u pw d st
          = ([KibotRequest.login u pw,
              KibotRequest.adjustments "allsymbols" d],
             some ("downloads_" ++ d ++ ".txt"))) ∧
      (¬(st = 200 ∨ st = 407) →
        mainAdjustments u pw d st = ([KibotRequest.login u pw], none))) :=
  ⟨by decide, by decide,
   (c8_downloaders_single_shot "dst" "all" "BTC/USDT ETH/USDT" testPairsOf
     (by decide) (by decide)).1,
   (c8_downloaders_single_shot "dst" "all" "BTC/USDT ETH/USDT" testPairsOf
     (by decide) (by decide)).2⟩

/-- C9: publish_notebook.py performs no notebook conversion or S3 transfer
itself — for the actions "convert", "publish_locally" and "publish_on_s3"
the HTML is produced by handing the external command
`jupyter nbconvert <file> --to html --output <dst>` to `si.system`
(followed only by an `mv` of the produced file), and for the action "open"
the remote file is checked and fetched by the external `aws s3 ls` and
`aws s3 cp` commands; the only non-shell transfer is the `s3fs.put`
library call of "publish_on_s3". -/
theorem c9_publish_notebook_wraps_external_tools
    (dirOfReal : String → String) (now : String)
    (file tag awsProfile publishNotebookDir s3Path : String) :
    (mainPublish dirOfReal now "open" file tag awsProfile
        publishNotebookDir s3Path
      = some (["aws s3 ls --profile " ++ awsProfile ++ " " ++ file,
               "aws s3 cp --profile " ++ awsProfile ++ " " ++ file ++ " "
                 ++ basename file], none)) ∧
    (∀ dstDir,
      (exportNotebookToDir dirOfReal now file tag dstDir).2
        = ["jupyter nbconvert " ++ file ++ " --to html --output "
             ++ (dirOfReal file ++ "/"
                  ++ addTag now ((splitExt (basename file)).1 ++ ".html")
                       tag),
           "mv " ++ (dirOfReal file ++ "/"
                  ++ addTag now ((splitExt (basename file)).1 ++ ".html")
                       tag) ++ " "
             ++ (dstDir ++ "/"
                  ++ basename (dirOfReal file ++ "/"
                       ++ addTag now
                            ((splitExt (basename file)).1 ++ ".html")
                            tag))]) ∧
    (mainPublish dirOfReal now "convert" file tag awsProfile
        publishNotebookDir s3Path
      = some ((exportNotebookToDir dirOfReal now file tag ".").2, none)) ∧
    (mainPublish dirOfReal now "publish_locally" file tag awsProfile
        publishNotebookDir s3Path
      = some ((exportNotebookToDir dirOfReal now file tag
          publishNotebookDir).2, none)) ∧
    (mainPublish dirOfReal now "publish_on_s3" file tag awsProfile
        publishNotebookDir s3Path
      = some ((exportNotebookToDir dirOfReal now file tag ".").2,
              some ((exportNotebookToDir dirOfReal now file tag ".").1,
                    s3Path ++ "/"
                      ++ basename (exportNotebookToDir dirOfReal now file
                           tag ".").1))) := by
  refine ⟨?_, fun dstDir => rfl, ?_, ?_, ?_⟩ <;>
    simp [mainPublish]

/-- C10: the DAG runners traverse a DAG fully built beforehand by the
supplied dag_builder — the runner loop never adds a node or edge to the
graph (the final state carries the initial DAG unchanged) and applies no
scheduling policy beyond iterating the prediction intervals in order,
yielding exactly one result bundle per interval. -/
theorem c10_dag_runner_traverses_prebuilt_graph {N R S I : Type}
    (runSink : Dag N → S → I → R × S) (st : RunnerState N S)
    (intervals : List I) :
    (dagRunnerRun runSink st intervals).2.dag = st.dag ∧
    (dagRunnerRun runSink st intervals).1.length = intervals.length := by
  induction intervals generalizing st with
  | nil => exact ⟨rfl, rfl⟩
  | cons i rest ih =>
    constructor
    · have h1 := (ih (dagRunnerStep runSink st i).2).1
      simpa [dagRunnerRun, dagRunnerStep] using h1
    · have h2 := (ih (dagRunnerStep runSink st i).2).2
      simpa [dagRunnerRun] using h2

end KaizenflowProof
